import Mathlib

/-!
Verification development for the appointment-scheduling conversation agent.
The definitions below are shallow embeddings of the Python source
(`main_graph.py`, `agents/greeting_agent.py`, `tools/calendar_tools.py`,
`tools/database_tools.py`, `tools/export_tools.py`).  External capabilities
(the LLM field-extraction oracle, the fuzzy string scorer, the clock, the
booking write) are passed in as explicit parameters, mirroring the spec
treatment of them as oracles.
-/

namespace SchedAgent

/-! ## Python value helpers -/

/-- Truthiness of an optional string under Python rules: `None` and the
empty string are falsy, every other string is truthy. -/
def truthyStr : Option String → Bool
  | none => false
  | some s => !(s == "")

/-- Python `a or b` on optional strings: `a` when `a` is truthy, else `b`. -/
def pyOrStr (a b : Option String) : Option String :=
  if truthyStr a then a else b

/-- Truthiness of an optional integer under Python rules: `None` and `0`
are falsy. -/
def truthyInt : Option Int → Bool
  | none => false
  | some n => !(n == 0)

/-- Python `a or b` on optional integers. -/
def pyOrInt (a b : Option Int) : Option Int :=
  if truthyInt a then a else b

/-- ASCII whitespace characters stripped by Python `str.strip()`. -/
def isPyWs (c : Char) : Bool :=
  c == ' ' || c == '\t' || c == '\n' || c == '\r' ||
  c == Char.ofNat 11 || c == Char.ofNat 12

/-- Python `str.strip()` with no argument (ASCII fragment). -/
def pyStrip (s : String) : String :=
  ⟨((s.data.dropWhile isPyWs).reverse.dropWhile isPyWs).reverse⟩

/-- Python `str.lower()` (ASCII fragment, which covers every keyword and
message produced by the agent). -/
def pyLower (s : String) : String :=
  ⟨s.data.map Char.toLower⟩

/-- Contiguous-sublist test on character lists, used to embed the Python
substring operator `needle in hay`. -/
def subListOf (n : List Char) : List Char → Bool
  | [] => n.isEmpty
  | c :: t => n.isPrefixOf (c :: t) || subListOf n t

/-- Python `needle in hay` on strings (contiguous substring containment). -/
def strIn (needle hay : String) : Bool :=
  subListOf needle.data hay.data

/-- Python `s[-4:]`: the last four characters of `s`, or all of `s` when
it is shorter than four characters. -/
def pyLast4 (s : String) : String :=
  ⟨s.data.drop (s.data.length - 4)⟩

/-! ## Data model (`AgentState` from `main_graph.py`) -/

/-- One chat message: a `{role, content}` dict from the message log. -/
structure Msg where
  role : String
  content : String
deriving DecidableEq, Repr

/-- The accumulated patient record (`PatientInfo` in
`agents/greeting_agent.py`); every field is nullable. -/
structure PatientInfo where
  full_name : Option String
  date_of_birth : Option String
  preferred_doctor : Option String
  preferred_location : Option String
deriving DecidableEq, Repr

/-- The conversation state (`AgentState` in `main_graph.py`).  The source
uses a `TypedDict` with optional keys; absent keys are embedded as `none`
(`available_slots` as `[]`, since every handler that touches it runs after
`find_slots_node` has set it). -/
structure AgentState where
  messages : List Msg
  patient_info : Option PatientInfo
  patient_id : Option String
  is_new_patient : Option Bool
  available_slots : List String
  chosen_slot : Option String
  appointment_id : Option String
  patient_email : Option String
  conversation_stage : Option String
deriving DecidableEq, Repr

/-- Default (all-null) patient record. -/
def PatientInfo.empty : PatientInfo := ⟨none, none, none, none⟩

/-- Position of a stage tag in the fixed stage order
greeting, information_confirmation, patient_lookup, find_slots,
selection_parser, confirmation, email_collection, completed. -/
def stageIndex : String → Nat
  | "greeting" => 0
  | "information_confirmation" => 1
  | "patient_lookup" => 2
  | "find_slots" => 3
  | "selection_parser" => 4
  | "confirmation" => 5
  | "email_collection" => 6
  | "completed" => 7
  | _ => 0

/-! ## Greeting agent helpers (`agents/greeting_agent.py`) -/

/-- Fieldwise merge performed by `greeting_node` when `patient_info`
already exists: `new or existing` per field (Python `or`, so an empty
string also yields to the existing value). -/
def mergePatientInfo (newInfo existingInfo : PatientInfo) : PatientInfo :=
  { full_name := pyOrStr newInfo.full_name existingInfo.full_name
    date_of_birth := pyOrStr newInfo.date_of_birth existingInfo.date_of_birth
    preferred_doctor := pyOrStr newInfo.preferred_doctor existingInfo.preferred_doctor
    preferred_location := pyOrStr newInfo.preferred_location existingInfo.preferred_location }

/-- `is_patient_info_complete`: all four fields truthy. -/
def is_patient_info_complete (pi : PatientInfo) : Bool :=
  truthyStr pi.full_name && truthyStr pi.date_of_birth &&
  truthyStr pi.preferred_doctor && truthyStr pi.preferred_location

/-- `format_patient_info_for_confirmation`: one line per truthy field,
joined by newlines. -/
def format_patient_info_for_confirmation (pi : PatientInfo) : String :=
  String.intercalate "\n"
    ((if truthyStr pi.full_name then ["**Name:** " ++ pi.full_name.getD ""] else []) ++
     (if truthyStr pi.date_of_birth then ["**Date of Birth:** " ++ pi.date_of_birth.getD ""] else []) ++
     (if truthyStr pi.preferred_doctor then ["**Preferred Doctor:** " ++ pi.preferred_doctor.getD ""] else []) ++
     (if truthyStr pi.preferred_location then ["**Preferred Location:** " ++ pi.preferred_location.getD ""] else []))

/-- Names of the missing fields, in the fixed source order. -/
def missingFieldsOf (pi : PatientInfo) : List String :=
  (if truthyStr pi.full_name then [] else ["your full name"]) ++
  (if truthyStr pi.date_of_birth then [] else ["your date of birth"]) ++
  (if truthyStr pi.preferred_doctor then [] else ["your preferred doctor"]) ++
  (if truthyStr pi.preferred_location then [] else ["your preferred location"])

/-- `get_missing_info_message`: `None` when nothing is missing, otherwise
the "I still need ..." sentence (plain, "X and Y", or Oxford-comma list). -/
def get_missing_info_message (pi : PatientInfo) : Option String :=
  let missing := missingFieldsOf pi
  match missing with
  | [] => none
  | [a] => some ("I still need " ++ a ++ ". Could you please provide that information?")
  | [a, b] => some ("I still need " ++ a ++ " and " ++ b ++ ". Could you please provide that information?")
  | l => some ("I still need " ++ String.intercalate ", " l.dropLast ++ ", and " ++
      (l.getLast?.getD "") ++ ". Could you please provide that information?")

/-! ## Modelled from the spec: missing-info formatting policy.
`oxfordJoin` renders a nonempty list of field names per the spec wording
(one name plain, two joined by "and", three or more as an Oxford-comma
list); it is compared with the source definition in claim C6. -/

/-- Modelled from the spec: the join used by the missing-info messaging
policy of section 4.1. -/
def oxfordJoin : List String → String
  | [] => ""
  | [a] => a
  | [a, b] => a ++ " and " ++ b
  | l => String.intercalate ", " l.dropLast ++ ", and " ++ (l.getLast?.getD "")

/-! ## Dialogue nodes (`main_graph.py`) -/

/-- Last user-authored message content, lowercased and stripped, as
computed at the top of `information_confirmation_node`. -/
def lastUserContent (msgs : List Msg) : Option String :=
  (msgs.reverse.find? (fun m => m.role == "user")).map (fun m => pyStrip (pyLower m.content))

/-- Affirmative keyword set of `information_confirmation_node`. -/
def affirmativeWords : List String := ["yes", "correct", "right", "confirm", "looks good"]

/-- Negative keyword set of `information_confirmation_node`. -/
def negativeWords : List String := ["no", "wrong", "incorrect", "change", "update"]

/-- Fallback branch of `information_confirmation_node`: re-display the
summary and stay at `information_confirmation`. -/
def confirmationReprompt (s : AgentState) : AgentState :=
  let formatted := format_patient_info_for_confirmation (s.patient_info.getD PatientInfo.empty)
  { s with
    messages := s.messages ++ [⟨"assistant",
      "Thank you! Let me confirm the information you\x27ve provided:\n\n" ++ formatted ++
      "\n\nIs this information correct? Please say \x27yes\x27 to confirm or \x27no\x27 if you need to make any changes."⟩]
    conversation_stage := some "information_confirmation" }

/-- `information_confirmation_node`: classify the last user utterance by
substring against the affirmative set first, then the negative set, else
re-prompt. -/
def information_confirmation_node (s : AgentState) : AgentState :=
  match lastUserContent s.messages with
  | some m =>
    if affirmativeWords.any (fun w => strIn w m) then
      { s with conversation_stage := some "patient_lookup" }
    else if negativeWords.any (fun w => strIn w m) then
      { s with
        messages := s.messages ++ [⟨"assistant",
          "No problem! Please tell me what information you\x27d like to update, and I\x27ll make the changes."⟩]
        conversation_stage := some "greeting" }
    else confirmationReprompt s
  | none => confirmationReprompt s

/-- Result of the router: dispatch to a named node, or the end/no-op
signal (`END` in LangGraph) that suspends until the next user turn. -/
inductive Route where
  | node (stage : String)
  | done
deriving DecidableEq, Repr

/-- `route_conversation`: `find_slots` always proceeds; otherwise suspend
when the last message is assistant-authored; otherwise dispatch to the
current stage (default `greeting`). -/
def route_conversation (s : AgentState) : Route :=
  let stage := s.conversation_stage.getD "greeting"
  if stage == "find_slots" then Route.node "find_slots"
  else
    match s.messages.getLast? with
    | some m => if m.role == "assistant" then Route.done else Route.node stage
    | none => Route.node stage

/-- Output of the slot-selection extraction oracle, with the alias keys
probed by `selection_parser_node` (`slotNumber`/`slot_number`/`number`
and `selectedSlot`/`selected_slot`/`slot`). -/
structure SelectionOracle where
  slotNumber : Option Int
  slot_number : Option Int
  number : Option Int
  selectedSlot : Option String
  selected_slot : Option String
  slot : Option String
deriving DecidableEq, Repr

/-- Clarification fallback of `selection_parser_node`: append the
re-prompt and return the stage to `find_slots`. -/
def selectionClarify (s : AgentState) : AgentState :=
  { s with
    messages := s.messages ++ [⟨"assistant",
      "I\x27m sorry, I couldn\x27t determine which slot you prefer. Please reply with the number of your chosen option (e.g., \x271\x27, \x27Option 2\x27)."⟩]
    conversation_stage := some "find_slots" }

/-- The `slot_number` alias chain of `selection_parser_node`
(`slotNumber or slot_number or number` under Python `or`). -/
def oracleSlotNumber (o : SelectionOracle) : Option Int :=
  pyOrInt (pyOrInt o.slotNumber o.slot_number) o.number

/-- The `selected_slot` alias chain of `selection_parser_node`
(`selectedSlot or selected_slot or slot` under Python `or`). -/
def oracleSelectedSlot (o : SelectionOracle) : Option String :=
  pyOrStr (pyOrStr o.selectedSlot o.selected_slot) o.slot

/-- The text-match relation of `selection_parser_node`: the extracted
text is a substring of the slot or the slot of the text. -/
def slotMatches (sel slot : String) : Bool :=
  strIn sel slot || strIn slot sel

/-- Text-match branch of `selection_parser_node`: choose the first slot
related to the extracted text by substring containment (either way). -/
def selectionTextBranch (selSlot : Option String) (s : AgentState) : AgentState :=
  if truthyStr selSlot && !(selSlot == some "AMBIGUOUS") then
    match s.available_slots.find? (slotMatches (selSlot.getD "")) with
    | some slot =>
      { s with chosen_slot := some slot, conversation_stage := some "confirmation" }
    | none => selectionClarify s
  else selectionClarify s

/-- `selection_parser_node`, parametric in the oracle result: a 1-based
in-range slot number selects that slot; otherwise try the slot text;
otherwise clarify. -/
def selection_parser_node (o : SelectionOracle) (s : AgentState) : AgentState :=
  match oracleSlotNumber o with
  | some n =>
    if 1 ≤ n ∧ n ≤ (s.available_slots.length : Int) then
      { s with
        chosen_slot := s.available_slots.get? (n - 1).toNat
        conversation_stage := some "confirmation" }
    else selectionTextBranch (oracleSelectedSlot o) s
  | none => selectionTextBranch (oracleSelectedSlot o) s

/-- Render an optional string the way a Python f-string renders it
(`None` for a missing value). -/
def optStr (o : Option String) : String := o.getD "None"

/-- `confirmation_node`, parametric in the outcome of
`export_tool.book_appointment` (success with the new id, or any raised
exception): on success store the id, announce it and ask for an email;
on failure apologize and regress to `find_slots`. -/
def confirmation_node (bookResult : Except String String) (s : AgentState) : AgentState :=
  match bookResult with
  | Except.ok apptId =>
    let pi := s.patient_info.getD PatientInfo.empty
    { s with
      appointment_id := some apptId
      messages := s.messages ++ [⟨"assistant",
        "Excellent! Your appointment is confirmed with ID **" ++ apptId ++ "** for:\n\n**" ++
        optStr s.chosen_slot ++ "**\n**Doctor:** " ++ optStr pi.preferred_doctor ++
        "\n**Location:** " ++ optStr pi.preferred_location ++
        "\n\nWhat is a good email address to send the intake form to?"⟩]
      conversation_stage := some "email_collection" }
  | Except.error _ =>
    { s with
      messages := s.messages ++ [⟨"assistant",
        "I\x27m sorry, there was an error while trying to book your appointment. Please try again."⟩]
      conversation_stage := some "find_slots" }

/-! ## Slot finder (`tools/calendar_tools.py`) -/

/-- One row of the doctor-schedule table, with start/end datetimes
embedded as minute counts. -/
structure ScheduleBlock where
  doctor_name : String
  start_dt : Nat
  end_dt : Nat
deriving DecidableEq, Repr

/-- The while loop inside `find_available_slots`: walk `slot_start`
forward in `dur`-minute steps while a full appointment still fits in the
block, emitting every start time that is not in the booked set.  The
`0 < dur` guard makes the loop terminating (the source always passes a
positive configured duration, 60 or 30). -/
def slotLoop (dur bEnd : Nat) (booked : List Nat) (doctor : String) (start : Nat) :
    List (String × Nat) :=
  if h : 0 < dur ∧ start + dur ≤ bEnd then
    if booked.contains start then slotLoop dur bEnd booked doctor (start + dur)
    else (doctor, start) :: slotLoop dur bEnd booked doctor (start + dur)
  else []
termination_by bEnd - start
decreasing_by all_goals omega

/-- `CalendarTools.find_available_slots`: the configured duration is 60
minutes for new patients and 30 for returning ones; blocks whose start
falls inside `[startDate, endDate)` are scanned in order, and each yields
its in-block slots in offset order.  A slot is embedded as the
(doctor, start-time) pair its display string renders. -/
def find_available_slots (is_new : Bool) (blocks : List ScheduleBlock)
    (booked : List Nat) (startDate endDate : Nat) : List (String × Nat) :=
  let dur := if is_new then 60 else 30
  (blocks.filter (fun b => startDate ≤ b.start_dt && b.start_dt < endDate)).flatMap
    (fun b => slotLoop dur b.end_dt booked b.doctor_name b.start_dt)

/-! ## Patient database (`tools/database_tools.py`) -/

/-- One row of the patient table. -/
structure PatientRow where
  patient_id : String
  first_name : String
  last_name : String
  date_of_birth : String
  visit_history : Nat
deriving DecidableEq, Repr

/-- The derived `full_name` column. -/
def fullName (r : PatientRow) : String := r.first_name ++ " " ++ r.last_name

/-- One step of the best-match scan of `thefuzz.process.extractOne`:
replace the current best when the new score is strictly better, and
admit a first candidate only at or above the cutoff. -/
def extractStep (score : String → String → Nat) (query : String) (cutoff : Nat)
    (best : Option (String × Nat)) (n : String) : Option (String × Nat) :=
  let sc := score query n
  match best with
  | none => if cutoff ≤ sc then some (n, sc) else none
  | some (bn, bs) => if bs < sc then some (n, sc) else some (bn, bs)

/-- `thefuzz.process.extractOne` with a score cutoff, parametric in the
scoring function of the external fuzzy-matching library: the first
highest-scoring name whose score clears the cutoff, or `none`. -/
def extractOne (score : String → String → Nat) (query : String)
    (names : List String) (cutoff : Nat) : Option (String × Nat) :=
  names.foldl (extractStep score query cutoff) none

/-- `PatientDB.search_patient`: fuzzy-match the queried name against the
stored full names with a floor of 80, then require an exact
date-of-birth string match on the rows bearing the matched name. -/
def search_patient (score : String → String → Nat) (df : List PatientRow)
    (full_name dob : String) : Option PatientRow :=
  if df.isEmpty then none
  else
    match extractOne score full_name (df.map fullName) 80 with
    | none => none
    | some (matched, _) =>
      df.find? (fun r => fullName r == matched && r.date_of_birth == dob)

/-! ## Booking writer (`tools/export_tools.py`)

The slot-descriptor parse embeds the Python regex
`(Dr\. .+?) on (.+?) at (.+)` under `re.search` semantics (leftmost match,
lazy first two groups with backtracking, greedy dot excluding newlines),
followed by `datetime.strptime` on the recombined text with format
`%A, %B %d, %Y %I:%M %p`, modelled after the CPython `_strptime`
implementation (case-insensitive names, whitespace runs, one-or-two-digit
numeric fields, calendar validation). -/

/-- Greedy final group `(.+)`: the maximal nonempty run of non-newline
characters at the current position. -/
def matchDotPlus (cs : List Char) : Option (List Char) :=
  let run := cs.takeWhile (fun c => !(c == '\n'))
  if run.isEmpty then none else some run

/-- Backtracking worker for a lazy group: with `acc` already consumed
into the group, first try to match `sep` and the continuation `k` here,
else extend the group by one non-newline character. -/
def lazyGo (sep : List Char) (k : List Char → Option α) (acc : List Char)
    (rem : List Char) : Option (List Char × α) :=
  match (if sep.isPrefixOf rem then (k (rem.drop sep.length)).map (fun r => (acc, r)) else none) with
  | some res => some res
  | none =>
    match h : rem with
    | [] => none
    | c :: rs => if c == '\n' then none else lazyGo sep k (acc ++ [c]) rs
termination_by rem.length
decreasing_by simp [h]

/-- Lazy group `(.+?)` followed by the literal `sep` and continuation
`k`: the group takes at least one character before `sep` is first
tried. -/
def lazyPlus (sep : List Char) (k : List Char → Option α) :
    List Char → Option (List Char × α)
  | [] => none
  | c :: rest => if c == '\n' then none else lazyGo sep k [c] rest

/-- Attempt the slot pattern anchored at the current position: the
literal `Dr. `, then the three groups. -/
def matchSlotAt (cs : List Char) : Option (List Char × List Char × List Char) :=
  let drLit : List Char := ['D', 'r', '.', ' ']
  let sepOn : List Char := [' ', 'o', 'n', ' ']
  let sepAt : List Char := [' ', 'a', 't', ' ']
  if drLit.isPrefixOf cs then
    match lazyPlus sepOn (fun rest2 => lazyPlus sepAt matchDotPlus rest2) (cs.drop 4) with
    | some (a, b, c) => some (drLit ++ a, b, c)
    | none => none
  else none

/-- `re.search` over the slot pattern: try each start position from the
left and return the first successful match. -/
def searchSlot : List Char → Option (List Char × List Char × List Char)
  | [] => none
  | c :: rest =>
    match matchSlotAt (c :: rest) with
    | some g => some g
    | none => searchSlot rest

/-- Lowercased full weekday names recognised by `%A`. -/
def weekdayNames : List String :=
  ["monday", "tuesday", "wednesday", "thursday", "friday", "saturday", "sunday"]

/-- Lowercased full month names recognised by `%B`, with month numbers. -/
def monthNames : List (String × Nat) :=
  [("january", 1), ("february", 2), ("march", 3), ("april", 4), ("may", 5),
   ("june", 6), ("july", 7), ("august", 8), ("september", 9), ("october", 10),
   ("november", 11), ("december", 12)]

/-- Match one name from a (prefix-free) name table at the head of the
input, returning its value and the rest. -/
def matchNameIn (names : List (String × Nat)) (cs : List Char) :
    Option (Nat × List Char) :=
  match names.find? (fun p => p.1.data.isPrefixOf cs) with
  | some p => some (p.2, cs.drop p.1.data.length)
  | none => none

/-- Digit value of a character. -/
def digitVal (c : Char) : Nat := c.toNat - 48

/-- Numeric field accepting one or two digits with a two-digit range
test, mirroring the `_strptime` regexes for `%d` (1..31), `%I` (1..12)
and `%M` (0..59); two digits are consumed when they form a value in
range, else one digit in the single-digit range. -/
def parseNum2 (lo2 hi2 lo1 : Nat) (cs : List Char) : Option (Nat × List Char) :=
  match cs with
  | c1 :: c2 :: rest =>
    if c1.isDigit && c2.isDigit &&
        decide (lo2 ≤ digitVal c1 * 10 + digitVal c2) &&
        decide (digitVal c1 * 10 + digitVal c2 ≤ hi2) then
      some (digitVal c1 * 10 + digitVal c2, rest)
    else if c1.isDigit && decide (lo1 ≤ digitVal c1) then some (digitVal c1, c2 :: rest)
    else none
  | [c1] =>
    if c1.isDigit && decide (lo1 ≤ digitVal c1) then some (digitVal c1, []) else none
  | [] => none

/-- Exactly four digits, for `%Y`. -/
def parseYear4 (cs : List Char) : Option (Nat × List Char) :=
  match cs with
  | a :: b :: c :: d :: rest =>
    if a.isDigit && b.isDigit && c.isDigit && d.isDigit then
      some (digitVal a * 1000 + digitVal b * 100 + digitVal c * 10 + digitVal d, rest)
    else none
  | _ => none

/-- One or more whitespace characters (the translation of a whitespace
run in the format string). -/
def parseWs : List Char → Option (List Char)
  | c :: rest => if isPyWs c then some (rest.dropWhile isPyWs) else none
  | [] => none

/-- A single literal character. -/
def parseLit (ch : Char) : List Char → Option (List Char)
  | c :: rest => if c == ch then some rest else none
  | [] => none

/-- Number of days in a month, with leap-year handling, as enforced when
`strptime` constructs the `datetime`. -/
def daysInMonth (year month : Nat) : Nat :=
  if month == 2 then
    if year % 4 == 0 && (year % 100 != 0 || year % 400 == 0) then 29 else 28
  else if month == 4 || month == 6 || month == 9 || month == 11 then 30
  else 31

/-- Parsed slot datetime: year, month, day, hour (24h) and minute. -/
structure SlotDateTime where
  year : Nat
  month : Nat
  day : Nat
  hour : Nat
  minute : Nat
deriving DecidableEq, Repr

/-- `datetime.strptime(data, "%A, %B %d, %Y %I:%M %p")` on the (already
lowercased) character list: weekday name, comma, month name, day, comma,
year, 12-hour time and am/pm marker, with the whole input consumed and
the resulting calendar date valid. -/
def strptimeSlot (cs : List Char) : Option SlotDateTime :=
  match matchNameIn (weekdayNames.map (fun w => (w, 0))) cs with
  | none => none
  | some (_, r1) =>
  match parseLit ',' r1 with
  | none => none
  | some r2 =>
  match parseWs r2 with
  | none => none
  | some r3 =>
  match matchNameIn monthNames r3 with
  | none => none
  | some (month, r4) =>
  match parseWs r4 with
  | none => none
  | some r5 =>
  match parseNum2 1 31 1 r5 with
  | none => none
  | some (day, r6) =>
  match parseLit ',' r6 with
  | none => none
  | some r7 =>
  match parseWs r7 with
  | none => none
  | some r8 =>
  match parseYear4 r8 with
  | none => none
  | some (year, r9) =>
  match parseWs r9 with
  | none => none
  | some r10 =>
  match parseNum2 1 12 1 r10 with
  | none => none
  | some (hour12, r11) =>
  match parseLit ':' r11 with
  | none => none
  | some r12 =>
  match parseNum2 0 59 0 r12 with
  | none => none
  | some (minute, r13) =>
  match parseWs r13 with
  | none => none
  | some r14 =>
  match matchNameIn [("am", 0), ("pm", 1)] r14 with
  | none => none
  | some (pm, r15) =>
    if r15.isEmpty && decide (1 ≤ year) && decide (day ≤ daysInMonth year month) then
      let hour := if pm == 1 then (if hour12 == 12 then 12 else hour12 + 12)
                  else (if hour12 == 12 then 0 else hour12)
      some ⟨year, month, day, hour, minute⟩
    else none

/-- `ExportTools._parse_slot_string`: regex-extract doctor, date and time
from the display string, re-attach the current year, and `strptime` the
result; any failure yields `none` (the Python code returns an empty
dict). -/
def parse_slot_string (year : Nat) (slot : String) : Option (String × SlotDateTime) :=
  match searchSlot slot.data with
  | none => none
  | some (g1, g2, g3) =>
    let doctor := pyStrip ⟨g1⟩
    let dateStr := pyStrip ⟨g2⟩
    let timeStr := pyStrip ⟨g3⟩
    let dataStr := pyLower (dateStr ++ ", " ++ toString year ++ " " ++ timeStr)
    match strptimeSlot dataStr.data with
    | none => none
    | some dt => some (doctor, dt)

/-- Appointment identifier generated by `book_appointment`:
`"APP" + timestamp + patient_id[-4:]` with a seconds-resolution
timestamp. -/
def appointmentId (timestamp patient_id : String) : String :=
  "APP" ++ timestamp ++ pyLast4 patient_id

/-- `ExportTools.book_appointment`, with the current year and the
seconds-resolution timestamp passed in for the clock: parse the chosen
slot string (raising `ValueError` as `Except.error` when it is
malformed) and return the generated appointment identifier. -/
def book_appointment (year : Nat) (timestamp patient_id chosen_slot : String) :
    Except String String :=
  match parse_slot_string year chosen_slot with
  | none => Except.error "Could not book appointment due to invalid slot format."
  | some _ => Except.ok (appointmentId timestamp patient_id)

/-! ## General helper lemmas -/

/-- A truthy optional string is non-null. -/
lemma truthyStr_isSome {x : Option String} (h : truthyStr x = true) : x.isSome = true := by
  cases x <;> simp_all [truthyStr]

/-- Python `or` on optional strings absorbs a repeated left operand. -/
lemma pyOrStr_idem (a b : Option String) : pyOrStr a (pyOrStr a b) = pyOrStr a b := by
  unfold pyOrStr
  by_cases h : truthyStr a = true <;> simp [h]

/-- Appending to a common left part is injective on strings. -/
lemma string_append_cancel_left (a x y : String) (h : a ++ x = a ++ y) : x = y := by
  cases a with | mk ad =>
  cases x with | mk xd =>
  cases y with | mk yd =>
  injection h with h2
  exact congrArg String.mk (List.append_cancel_left h2)

/-! ## Claim theorems -/

/-- Concrete conversation state for claim C2: the collected information is
complete and the last user reply is the single word "incorrect". -/
def c2State : AgentState :=
  { messages := [⟨"user", "incorrect"⟩]
    patient_info := some ⟨some "Jane Doe", some "1985-03-15", some "Dr. Smith", some "Downtown Clinic"⟩
    patient_id := none
    is_new_patient := none
    available_slots := []
    chosen_slot := none
    appointment_id := none
    patient_email := none
    conversation_stage := some "information_confirmation" }

/-- Claim C2 (code_bug): the reply "incorrect" is in the negative keyword
set, so by the claim the stage should become `greeting`; but the
affirmative substring check runs first and "correct" is a substring of
"incorrect", so the code advances to `patient_lookup` instead.  This
theorem evaluates the handler at the failing input and also records the
two keyword facts the divergence rests on. -/
theorem c2_incorrect_classified_affirmative :
    negativeWords.contains "incorrect" = true ∧
    strIn "correct" "incorrect" = true ∧
    (information_confirmation_node c2State).conversation_stage = some "patient_lookup" := by
  refine ⟨by decide, by decide, by decide⟩

/-- Claim C4 (confirmed): the patient-info merge is fieldwise
`new if truthy else old`; a non-null prior field stays non-null after any
merge; and merging the same extracted record twice equals merging it
once. -/
theorem c4_merge_policy (newInfo oldInfo : PatientInfo) :
    ((mergePatientInfo newInfo oldInfo).full_name
        = (if truthyStr newInfo.full_name then newInfo.full_name else oldInfo.full_name) ∧
      (mergePatientInfo newInfo oldInfo).date_of_birth
        = (if truthyStr newInfo.date_of_birth then newInfo.date_of_birth else oldInfo.date_of_birth) ∧
      (mergePatientInfo newInfo oldInfo).preferred_doctor
        = (if truthyStr newInfo.preferred_doctor then newInfo.preferred_doctor else oldInfo.preferred_doctor) ∧
      (mergePatientInfo newInfo oldInfo).preferred_location
        = (if truthyStr newInfo.preferred_location then newInfo.preferred_location else oldInfo.preferred_location)) ∧
    ((oldInfo.full_name.isSome = true → (mergePatientInfo newInfo oldInfo).full_name.isSome = true) ∧
      (oldInfo.date_of_birth.isSome = true → (mergePatientInfo newInfo oldInfo).date_of_birth.isSome = true) ∧
      (oldInfo.preferred_doctor.isSome = true → (mergePatientInfo newInfo oldInfo).preferred_doctor.isSome = true) ∧
      (oldInfo.preferred_location.isSome = true → (mergePatientInfo newInfo oldInfo).preferred_location.isSome = true)) ∧
    mergePatientInfo newInfo (mergePatientInfo newInfo oldInfo) = mergePatientInfo newInfo oldInfo := by
  refine ⟨⟨rfl, rfl, rfl, rfl⟩, ⟨?_, ?_, ?_, ?_⟩, ?_⟩
  · intro h
    by_cases ht : truthyStr newInfo.full_name = true
    · simp [mergePatientInfo, pyOrStr, ht, truthyStr_isSome ht]
    · simp [mergePatientInfo, pyOrStr, ht, h]
  · intro h
    by_cases ht : truthyStr newInfo.date_of_birth = true
    · simp [mergePatientInfo, pyOrStr, ht, truthyStr_isSome ht]
    · simp [mergePatientInfo, pyOrStr, ht, h]
  · intro h
    by_cases ht : truthyStr newInfo.preferred_doctor = true
    · simp [mergePatientInfo, pyOrStr, ht, truthyStr_isSome ht]
    · simp [mergePatientInfo, pyOrStr, ht, h]
  · intro h
    by_cases ht : truthyStr newInfo.preferred_location = true
    · simp [mergePatientInfo, pyOrStr, ht, truthyStr_isSome ht]
    · simp [mergePatientInfo, pyOrStr, ht, h]
  · simp [mergePatientInfo, pyOrStr_idem]

/-- Witness for claim C4 at a concrete input: a known name survives a
merge whose extraction returned null for it. -/
theorem c4_merge_policy_witness :
    (mergePatientInfo ⟨none, some "", some "Dr. Lee", none⟩
      ⟨some "John Smith", some "1990-01-01", none, some "Downtown"⟩).full_name.isSome = true :=
  (c4_merge_policy ⟨none, some "", some "Dr. Lee", none⟩
    ⟨some "John Smith", some "1990-01-01", none, some "Downtown"⟩).2.1.1 (by decide)

/-- Claim C6 (confirmed): the missing-info message enumerates the absent
fields in the fixed order with the zero/one/two/Oxford-comma formats of
the spec policy (here `oxfordJoin` over `missingFieldsOf`), and the
doctor-and-location instance produces exactly the required sentence. -/
theorem c6_missing_info_message (pi : PatientInfo) :
    get_missing_info_message pi =
      (if is_patient_info_complete pi then none
       else some ("I still need " ++ oxfordJoin (missingFieldsOf pi) ++
         ". Could you please provide that information?")) ∧
    get_missing_info_message ⟨some "Jane Doe", some "1985-03-15", none, none⟩ =
      some "I still need your preferred doctor and your preferred location. Could you please provide that information?" := by
  constructor
  · by_cases h1 : truthyStr pi.full_name = true <;>
    by_cases h2 : truthyStr pi.date_of_birth = true <;>
    by_cases h3 : truthyStr pi.preferred_doctor = true <;>
    by_cases h4 : truthyStr pi.preferred_location = true <;>
      simp [get_missing_info_message, missingFieldsOf, is_patient_info_complete,
        oxfordJoin, h1, h2, h3, h4] <;> decide
  · rfl

/-- Claim C9 (confirmed): on a booking failure the confirmation handler
only appends the apology and regresses the stage to `find_slots` (in
particular `appointment_id` is untouched); on success it stores the
generated identifier and advances to `email_collection`; and a chosen
slot string that does not match the expected pattern makes
`book_appointment` fail. -/
theorem c9_confirmation_error_handling :
    (∀ (e : String) (s : AgentState),
        confirmation_node (Except.error e) s =
          { s with
            messages := s.messages ++ [⟨"assistant",
              "I\x27m sorry, there was an error while trying to book your appointment. Please try again."⟩]
            conversation_stage := some "find_slots" } ∧
        (confirmation_node (Except.error e) s).appointment_id = s.appointment_id) ∧
    (∀ (apptId : String) (s : AgentState),
        (confirmation_node (Except.ok apptId) s).appointment_id = some apptId ∧
        (confirmation_node (Except.ok apptId) s).conversation_stage = some "email_collection") ∧
    (∀ (year : Nat) (ts pid slot : String),
        searchSlot slot.data = none →
        book_appointment year ts pid slot =
          Except.error "Could not book appointment due to invalid slot format.") := by
  refine ⟨fun e s => ⟨rfl, rfl⟩, fun apptId s => ⟨rfl, rfl⟩, fun year ts pid slot h => ?_⟩
  unfold book_appointment parse_slot_string
  rw [h]

/-- Witness for claim C9 at a concrete input: the malformed slot string
"garbage" makes the booking call fail. -/
theorem c9_confirmation_error_handling_witness :
    book_appointment 2026 "20260101123456" "P001" "garbage" =
      Except.error "Could not book appointment due to invalid slot format." :=
  c9_confirmation_error_handling.2.2 2026 "20260101123456" "P001" "garbage" (by decide)

/-- Claim C10 (confirmed): with the same seconds-resolution timestamp,
patient identifiers with different trailing four characters yield
different appointment identifiers. -/
theorem c10_appointment_id_distinct (ts p1 p2 : String)
    (h : pyLast4 p1 ≠ pyLast4 p2) :
    appointmentId ts p1 ≠ appointmentId ts p2 := by
  intro he
  exact h (string_append_cancel_left ("APP" ++ ts) _ _ he)

/-- Witness for claim C10 at a concrete input: same second, patient ids
`P001` and `P002`. -/
theorem c10_appointment_id_distinct_witness :
    pyLast4 "P001" ≠ pyLast4 "P002" ∧
    appointmentId "20260101123456" "P001" ≠ appointmentId "20260101123456" "P002" :=
  ⟨by decide, c10_appointment_id_distinct "20260101123456" "P001" "P002" (by decide)⟩

/-- The text branch either leaves `chosen_slot` unchanged and regresses
the stage to `find_slots`, or sets the stage to `confirmation`. -/
lemma selectionTextBranch_stage (sel : Option String) (s : AgentState) :
    ((selectionTextBranch sel s).chosen_slot = s.chosen_slot ∧
      (selectionTextBranch sel s).conversation_stage = some "find_slots") ∨
    (selectionTextBranch sel s).conversation_stage = some "confirmation" := by
  unfold selectionTextBranch selectionClarify
  split
  · split
    · right; rfl
    · left; exact ⟨rfl, rfl⟩
  · left; exact ⟨rfl, rfl⟩

/-- The selection node either leaves `chosen_slot` unchanged and regresses
the stage to `find_slots`, or sets the stage to `confirmation`. -/
lemma selection_parser_stage (o : SelectionOracle) (s : AgentState) :
    ((selection_parser_node o s).chosen_slot = s.chosen_slot ∧
      (selection_parser_node o s).conversation_stage = some "find_slots") ∨
    (selection_parser_node o s).conversation_stage = some "confirmation" := by
  unfold selection_parser_node
  split
  · split
    · right; rfl
    · exact selectionTextBranch_stage _ _
  · exact selectionTextBranch_stage _ _

/-- Concrete conversation state for the claim C1 counterexample: a slot
has just been chosen and the stage is `confirmation`. -/
def c1State : AgentState :=
  { messages := []
    patient_info := some ⟨some "Jane Doe", some "1985-03-15", some "Dr. Smith", some "Downtown Clinic"⟩
    patient_id := some "P001"
    is_new_patient := some false
    available_slots := ["Dr. Smith on Monday, September 08 at 10:30 AM"]
    chosen_slot := some "Dr. Smith on Monday, September 08 at 10:30 AM"
    appointment_id := none
    patient_email := none
    conversation_stage := some "confirmation" }

/-- Counterexample to claim C1 as stated: after the booking-failure path
of the confirmation node, `chosen_slot` is still set while the stage has
regressed to `find_slots`, which lies strictly before `confirmation` in
the stage order. -/
theorem c1_invariant_counterexample :
    (confirmation_node (Except.error "write failure") c1State).chosen_slot.isSome = true ∧
    stageIndex (((confirmation_node (Except.error "write failure") c1State).conversation_stage).getD "greeting")
      < stageIndex "confirmation" := by
  exact ⟨by decide, by decide⟩

/-- Claim C1 (corrected): the stage-order invariant for `chosen_slot`
holds after `selection_parser_node` (entered with no slot chosen yet) and
after the success path of `confirmation_node`; but on the booking-failure
path of `confirmation_node` the stage regresses to `find_slots` while
`chosen_slot` is left set, so the invariant does not survive that path. -/
theorem c1_stage_invariant_amended (o : SelectionOracle) (s : AgentState) :
    (s.chosen_slot = none →
      (selection_parser_node o s).chosen_slot.isSome = true →
      stageIndex "confirmation" ≤
        stageIndex (((selection_parser_node o s).conversation_stage).getD "greeting")) ∧
    (∀ apptId : String,
      (confirmation_node (Except.ok apptId) s).chosen_slot = s.chosen_slot ∧
      stageIndex "confirmation" ≤
        stageIndex (((confirmation_node (Except.ok apptId) s).conversation_stage).getD "greeting")) ∧
    (∀ e : String,
      (confirmation_node (Except.error e) s).chosen_slot = s.chosen_slot ∧
      (confirmation_node (Except.error e) s).conversation_stage = some "find_slots") := by
  refine ⟨?_, fun apptId => ⟨rfl, ?_⟩, fun e => ⟨rfl, rfl⟩⟩
  case refine_2 =>
    have hok : (confirmation_node (Except.ok apptId) s).conversation_stage =
        some "email_collection" := rfl
    rw [hok]
    decide
  intro h0 hset
  rcases selection_parser_stage o s with ⟨hc, _⟩ | hstage
  · rw [hc, h0] at hset
    simp at hset
  · rw [hstage]
    simp [stageIndex]

/-- Concrete state for the claim C1 witness: one available slot, none
chosen yet, and the oracle returns slot number 1. -/
def c1WitnessState : AgentState :=
  { messages := []
    patient_info := none
    patient_id := none
    is_new_patient := none
    available_slots := ["Dr. Smith on Monday, September 08 at 10:30 AM"]
    chosen_slot := none
    appointment_id := none
    patient_email := none
    conversation_stage := some "selection_parser" }

/-- Witness for claim C1 at a concrete input: choosing slot 1 moves the
stage to `confirmation` (at or beyond it in the stage order). -/
theorem c1_stage_invariant_amended_witness :
    stageIndex "confirmation" ≤
      stageIndex (((selection_parser_node ⟨some 1, none, none, none, none, none⟩ c1WitnessState).conversation_stage).getD "greeting") :=
  (c1_stage_invariant_amended ⟨some 1, none, none, none, none, none⟩ c1WitnessState).1
    rfl (by decide)

/-- Claim C3 (confirmed): the router always proceeds to `find_slots` when
that is the current stage; in every other stage it suspends (returns the
end signal) exactly when the message log is non-empty with an
assistant-authored last message, and otherwise dispatches to the current
stage, defaulting to `greeting`. -/
theorem c3_route_conversation (s : AgentState) :
    (s.conversation_stage.getD "greeting" = "find_slots" →
      route_conversation s = Route.node "find_slots") ∧
    (s.conversation_stage.getD "greeting" ≠ "find_slots" →
      ((route_conversation s = Route.done) ↔
        (∃ m, s.messages.getLast? = some m ∧ m.role = "assistant")) ∧
      (∀ m, s.messages.getLast? = some m → m.role ≠ "assistant" →
        route_conversation s = Route.node (s.conversation_stage.getD "greeting")) ∧
      (s.messages = [] →
        route_conversation s = Route.node (s.conversation_stage.getD "greeting"))) := by
  constructor
  · intro h
    simp [route_conversation, h]
  · intro h
    refine ⟨?_, ?_, ?_⟩
    · cases hm : s.messages.getLast? with
      | none => simp [route_conversation, h, hm]
      | some m =>
        by_cases hr : m.role = "assistant"
        · simp [route_conversation, h, hm, hr]
        · simp [route_conversation, h, hm, hr]
    · intro m hm hr
      simp [route_conversation, h, hm, hr]
    · intro hm
      simp [route_conversation, h, hm]

/-- Witness for claim C3 at a concrete input: with stage `greeting` and a
user-authored last message, the router dispatches to `greeting`. -/
theorem c3_route_conversation_witness :
    route_conversation
      { messages := [⟨"user", "Hi there!"⟩]
        patient_info := none
        patient_id := none
        is_new_patient := none
        available_slots := []
        chosen_slot := none
        appointment_id := none
        patient_email := none
        conversation_stage := some "greeting" } = Route.node "greeting" :=
  ((c3_route_conversation _).2 (by decide)).2.1 ⟨"user", "Hi there!"⟩ (by decide) (by decide)

/-- When the oracle yields no in-range slot number, the selection node is
exactly its text-match branch. -/
lemma selection_parser_eq_textBranch (o : SelectionOracle) (s : AgentState)
    (h : ∀ n : Int, oracleSlotNumber o = some n →
      ¬(1 ≤ n ∧ n ≤ (s.available_slots.length : Int))) :
    selection_parser_node o s = selectionTextBranch (oracleSelectedSlot o) s := by
  unfold selection_parser_node
  cases hn : oracleSlotNumber o with
  | none => rfl
  | some n =>
    dsimp only
    rw [if_neg (h n hn)]

/-- The text branch never invents a slot: it leaves `chosen_slot` alone
or assigns an element of the retained list. -/
lemma selectionTextBranch_safety (sel : Option String) (s : AgentState) :
    (selectionTextBranch sel s).chosen_slot = s.chosen_slot ∨
      ∃ x ∈ s.available_slots, (selectionTextBranch sel s).chosen_slot = some x := by
  unfold selectionTextBranch selectionClarify
  split
  · split
    next slot hfind =>
      exact Or.inr ⟨slot, List.mem_of_find?_eq_some hfind, rfl⟩
    next => exact Or.inl rfl
  · exact Or.inl rfl

/-- Claim C7 (confirmed): `chosen_slot` is only ever assigned an element
of the retained `available_slots` list; an in-range 1-based slot number
selects exactly the element at that index (which exists, so the list is
never indexed out of bounds); failing that, matching slot text selects
the first related slot; and when neither applies the node appends the
clarification and returns the stage to `find_slots`, choosing nothing. -/
theorem c7_selection_safety (o : SelectionOracle) (s : AgentState) :
    ((selection_parser_node o s).chosen_slot = s.chosen_slot ∨
      ∃ x ∈ s.available_slots, (selection_parser_node o s).chosen_slot = some x) ∧
    (∀ n : Int, oracleSlotNumber o = some n →
      1 ≤ n → n ≤ (s.available_slots.length : Int) →
      (selection_parser_node o s).chosen_slot = s.available_slots.get? (n - 1).toNat ∧
      (∃ x ∈ s.available_slots, s.available_slots.get? (n - 1).toNat = some x) ∧
      (selection_parser_node o s).conversation_stage = some "confirmation") ∧
    ((∀ n : Int, oracleSlotNumber o = some n →
        ¬(1 ≤ n ∧ n ≤ (s.available_slots.length : Int))) →
      (∀ x : String,
        truthyStr (oracleSelectedSlot o) = true →
        oracleSelectedSlot o ≠ some "AMBIGUOUS" →
        s.available_slots.find? (slotMatches ((oracleSelectedSlot o).getD "")) = some x →
        (selection_parser_node o s).chosen_slot = some x ∧ x ∈ s.available_slots ∧
        (selection_parser_node o s).conversation_stage = some "confirmation") ∧
      ((truthyStr (oracleSelectedSlot o) = false ∨ oracleSelectedSlot o = some "AMBIGUOUS" ∨
          s.available_slots.find? (slotMatches ((oracleSelectedSlot o).getD "")) = none) →
        selection_parser_node o s = selectionClarify s)) ∧
    ((selectionClarify s).chosen_slot = s.chosen_slot ∧
      (selectionClarify s).conversation_stage = some "find_slots" ∧
      (selectionClarify s).messages = s.messages ++ [⟨"assistant",
        "I\x27m sorry, I couldn\x27t determine which slot you prefer. Please reply with the number of your chosen option (e.g., \x271\x27, \x27Option 2\x27)."⟩]) := by
  refine ⟨?_, ?_, ?_, ⟨rfl, rfl, rfl⟩⟩
  · -- safety: case on the shape of the node
    unfold selection_parser_node
    cases hn : oracleSlotNumber o with
    | none => exact selectionTextBranch_safety _ _
    | some n =>
      dsimp only
      by_cases hrange : 1 ≤ n ∧ n ≤ (s.available_slots.length : Int)
      · rw [if_pos hrange]
        have hlt : (n - 1).toNat < s.available_slots.length := by omega
        refine Or.inr ⟨s.available_slots.get ⟨(n - 1).toNat, hlt⟩, List.get_mem _ _ _, ?_⟩
        simp [List.get?_eq_get hlt]
      · rw [if_neg hrange]
        exact selectionTextBranch_safety _ _
  · intro n hn h1 h2
    have hred : selection_parser_node o s =
        { s with
          chosen_slot := s.available_slots.get? (n - 1).toNat
          conversation_stage := some "confirmation" } := by
      unfold selection_parser_node
      rw [hn]
      dsimp only
      rw [if_pos ⟨h1, h2⟩]
    have hlt : (n - 1).toNat < s.available_slots.length := by omega
    refine ⟨by rw [hred], ?_, by rw [hred]⟩
    refine ⟨s.available_slots.get ⟨(n - 1).toNat, hlt⟩, List.get_mem _ _ _, ?_⟩
    simp [List.get?_eq_get hlt]
  · intro hinvalid
    have hred := selection_parser_eq_textBranch o s hinvalid
    constructor
    · intro x ht ha hfind
      have hcond : (truthyStr (oracleSelectedSlot o) &&
          !(oracleSelectedSlot o == some "AMBIGUOUS")) = true := by
        simp [ht, ha]
      rw [hred]
      unfold selectionTextBranch
      rw [if_pos hcond, hfind]
      exact ⟨rfl, List.mem_of_find?_eq_some hfind, rfl⟩
    · intro hfail
      rw [hred]
      unfold selectionTextBranch
      rcases hfail with ht | ha | hfind
      · rw [if_neg (by simp [ht])]
      · rw [if_neg (by simp [ha])]
      · by_cases hc : (truthyStr (oracleSelectedSlot o) &&
            !(oracleSelectedSlot o == some "AMBIGUOUS")) = true
        · rw [if_pos hc, hfind]
        · rw [if_neg hc]

/-- Concrete state for the claim C7 witness: three retained slots, none
chosen. -/
def c7WitnessState : AgentState :=
  { messages := []
    patient_info := none
    patient_id := none
    is_new_patient := none
    available_slots := ["slot one", "slot two", "slot three"]
    chosen_slot := none
    appointment_id := none
    patient_email := none
    conversation_stage := some "selection_parser" }

/-- Witness for claim C7 at a concrete input: oracle slot number 2 over
three retained slots moves the stage to `confirmation` (and, by the same
clause, selects `slots[1]`). -/
theorem c7_selection_safety_witness :
    (selection_parser_node ⟨some 2, none, none, none, none, none⟩ c7WitnessState).conversation_stage
      = some "confirmation" :=
  ((c7_selection_safety ⟨some 2, none, none, none, none, none⟩ c7WitnessState).2.1
    2 rfl (by decide) (by decide)).2.2

/-- One `extractStep` preserves the invariant that any produced best
candidate scores its own name and clears the cutoff. -/
lemma extractStep_inv (score : String → String → Nat) (q : String) (cutoff : Nat)
    (acc : Option (String × Nat)) (n : String)
    (hacc : ∀ m sc, acc = some (m, sc) → sc = score q m ∧ cutoff ≤ sc)
    (m : String) (sc : Nat)
    (h : extractStep score q cutoff acc n = some (m, sc)) :
    sc = score q m ∧ cutoff ≤ sc := by
  unfold extractStep at h
  cases acc with
  | none =>
    by_cases hc : cutoff ≤ score q n
    · simp only [hc, if_true] at h
      obtain ⟨rfl, rfl⟩ := Prod.mk.injEq .. ▸ (Option.some.injEq .. ▸ h)
      exact ⟨rfl, hc⟩
    · simp [hc] at h
  | some p =>
    obtain ⟨bn, bs⟩ := p
    have hbs := hacc bn bs rfl
    by_cases hlt : bs < score q n
    · simp only [hlt, if_true] at h
      obtain ⟨rfl, rfl⟩ := Prod.mk.injEq .. ▸ (Option.some.injEq .. ▸ h)
      exact ⟨rfl, le_trans hbs.2 (le_of_lt hlt)⟩
    · simp only [hlt, if_false] at h
      obtain ⟨rfl, rfl⟩ := Prod.mk.injEq .. ▸ (Option.some.injEq .. ▸ h)
      exact hbs

/-- Folding `extractStep` preserves the same invariant. -/
lemma extractOne_foldl_inv (score : String → String → Nat) (q : String) (cutoff : Nat) :
    ∀ (names : List String) (acc : Option (String × Nat)),
      (∀ m sc, acc = some (m, sc) → sc = score q m ∧ cutoff ≤ sc) →
      ∀ m sc, names.foldl (extractStep score q cutoff) acc = some (m, sc) →
        sc = score q m ∧ cutoff ≤ sc := by
  intro names
  induction names with
  | nil => intro acc hacc m sc h; exact hacc m sc h
  | cons n ns ih =>
    intro acc hacc m sc h
    exact ih (extractStep score q cutoff acc n)
      (fun m0 sc0 h0 => extractStep_inv score q cutoff acc n hacc m0 sc0 h0) m sc h

/-- A match returned by `extractOne` scores its own name at or above the
cutoff. -/
lemma extractOne_inv (score : String → String → Nat) (q : String)
    (names : List String) (cutoff : Nat) (m : String) (sc : Nat)
    (h : extractOne score q names cutoff = some (m, sc)) :
    sc = score q m ∧ cutoff ≤ sc :=
  extractOne_foldl_inv score q cutoff names none (by simp) m sc h

/-- Claim C8 (confirmed): a patient record is returned only when the
fuzzy score of its stored full name clears the floor of 80 and its
stored date-of-birth string equals the query exactly; and whenever the
best fuzzy match clears the floor but every row bearing that name has a
different date of birth, the search returns not-found. -/
theorem c8_search_patient (score : String → String → Nat) (df : List PatientRow)
    (qname qdob : String) :
    (∀ r, search_patient score df qname qdob = some r →
        r ∈ df ∧ r.date_of_birth = qdob ∧ 80 ≤ score qname (fullName r)) ∧
    (∀ m sc, extractOne score qname (df.map fullName) 80 = some (m, sc) →
        (∀ r ∈ df, fullName r = m → r.date_of_birth ≠ qdob) →
        search_patient score df qname qdob = none) := by
  constructor
  · intro r hr
    unfold search_patient at hr
    by_cases he : df.isEmpty
    · simp [he] at hr
    · rw [if_neg he] at hr
      cases hx : extractOne score qname (df.map fullName) 80 with
      | none => rw [hx] at hr; exact absurd hr (by simp)
      | some p =>
        obtain ⟨matched, sc⟩ := p
        rw [hx] at hr
        have hmem := List.mem_of_find?_eq_some hr
        have hpred := List.find?_some hr
        simp only [Bool.and_eq_true, beq_iff_eq] at hpred
        obtain ⟨hname, hdob⟩ := hpred
        have hsc := extractOne_inv score qname (df.map fullName) 80 matched sc hx
        refine ⟨hmem, hdob, ?_⟩
        rw [hname, ← hsc.1]
        exact hsc.2
  · intro m sc hx hall
    unfold search_patient
    by_cases he : df.isEmpty
    · rw [if_pos he]
    · rw [if_neg he, hx]
      rw [List.find?_eq_none]
      intro r hr
      simp only [Bool.and_eq_true, beq_iff_eq, not_and]
      intro hname hdob
      exact hall r hr hname hdob

/-- Stored patient row used by the claim C8 witness. -/
def c8WitnessRow : PatientRow := ⟨"P001", "John", "Smith", "1990-01-01", 2⟩

/-- Constant fuzzy scorer (score 90, above the floor) used by the claim
C8 witness. -/
def c8WitnessScore : String → String → Nat := fun _ _ => 90

/-- Witness for claim C8 at a concrete input: the name clears the floor
(score 90 for the only stored row) but the queried date of birth differs,
so the search returns not-found. -/
theorem c8_search_patient_witness :
    search_patient c8WitnessScore [c8WitnessRow] "Jon Smith" "1985-05-05" = none :=
  (c8_search_patient c8WitnessScore [c8WitnessRow] "Jon Smith" "1985-05-05").2
    "John Smith" 90 (by decide) (by decide)

/-- Membership in the slot loop output: exactly the duration-aligned
offsets from the loop start that still fit in the block and are not
booked. -/
lemma slotLoop_mem_iff (dur bEnd : Nat) (booked : List Nat) (doc : String)
    (hd : 0 < dur) (d : String) (t : Nat) :
    ∀ start : Nat,
      ((d, t) ∈ slotLoop dur bEnd booked doc start ↔
        d = doc ∧ (∃ k, t = start + k * dur) ∧ t + dur ≤ bEnd ∧
          booked.contains t = false) := by
  suffices h : ∀ (n start : Nat), bEnd - start ≤ n →
      ((d, t) ∈ slotLoop dur bEnd booked doc start ↔
        d = doc ∧ (∃ k, t = start + k * dur) ∧ t + dur ≤ bEnd ∧
          booked.contains t = false) by
    intro start
    exact h (bEnd - start) start le_rfl
  intro n
  induction n with
  | zero =>
    intro start h0
    rw [slotLoop, dif_neg (by omega)]
    simp only [List.not_mem_nil, false_iff, not_and]
    rintro - ⟨k, rfl⟩ hfit
    omega
  | succ nn ih =>
    intro start h0
    rw [slotLoop]
    by_cases hg : start + dur ≤ bEnd
    · rw [dif_pos ⟨hd, hg⟩]
      have hih := ih (start + dur) (by omega)
      by_cases hb : booked.contains start = true
      · rw [if_pos hb]
        rw [hih]
        constructor
        · rintro ⟨hdoc, ⟨k, hk⟩, hfit, hbt⟩
          exact ⟨hdoc, ⟨k + 1, by rw [hk]; ring⟩, hfit, hbt⟩
        · rintro ⟨hdoc, ⟨k, hk⟩, hfit, hbt⟩
          refine ⟨hdoc, ?_, hfit, hbt⟩
          cases k with
          | zero =>
            exfalso
            rw [Nat.zero_mul, Nat.add_zero] at hk
            rw [hk] at hbt
            rw [hbt] at hb
            exact Bool.false_ne_true hb
          | succ k =>
            exact ⟨k, by rw [hk]; ring⟩
      · rw [if_neg hb]
        have hb' : booked.contains start = false := by
          revert hb; cases booked.contains start <;> simp
        constructor
        · intro hmem
          rcases List.mem_cons.mp hmem with heq | hmem2
          · have hd1 : d = doc := congrArg Prod.fst heq
            have ht1 : t = start := congrArg Prod.snd heq
            subst ht1
            exact ⟨hd1, ⟨0, by ring⟩, hg, hb'⟩
          · obtain ⟨hdoc, ⟨k, hk⟩, hfit, hbt⟩ := (hih).mp hmem2
            exact ⟨hdoc, ⟨k + 1, by rw [hk]; ring⟩, hfit, hbt⟩
        · rintro ⟨hdoc, ⟨k, hk⟩, hfit, hbt⟩
          cases k with
          | zero =>
            rw [Nat.zero_mul, Nat.add_zero] at hk
            subst hk
            subst hdoc
            exact List.mem_cons_self _ _
          | succ k =>
            refine List.mem_cons_of_mem _ ((hih).mpr ⟨hdoc, ⟨k, by rw [hk]; ring⟩, hfit, hbt⟩)
    · rw [dif_neg (by omega)]
      simp only [List.not_mem_nil, false_iff, not_and]
      rintro - ⟨k, rfl⟩ hfit
      omega

/-- Every emitted slot starts at or after the loop start. -/
lemma slotLoop_lower_bound (dur bEnd : Nat) (booked : List Nat) (doc : String)
    (hd : 0 < dur) (start : Nat) (p : String × Nat)
    (hp : p ∈ slotLoop dur bEnd booked doc start) : start ≤ p.2 := by
  obtain ⟨-, ⟨k, hk⟩, -, -⟩ :=
    (slotLoop_mem_iff dur bEnd booked doc hd p.1 p.2 start).mp (by simpa using hp)
  omega

/-- The slot loop emits start times in strictly increasing order. -/
lemma slotLoop_chain (dur bEnd : Nat) (booked : List Nat) (doc : String)
    (hd : 0 < dur) :
    ∀ start : Nat,
      List.Chain' (fun p q : String × Nat => p.2 < q.2)
        (slotLoop dur bEnd booked doc start) := by
  suffices h : ∀ (n start : Nat), bEnd - start ≤ n →
      List.Chain' (fun p q : String × Nat => p.2 < q.2)
        (slotLoop dur bEnd booked doc start) by
    intro start
    exact h (bEnd - start) start le_rfl
  intro n
  induction n with
  | zero =>
    intro start h0
    rw [slotLoop, dif_neg (by omega)]
    exact List.chain'_nil
  | succ nn ih =>
    intro start h0
    rw [slotLoop]
    by_cases hg : start + dur ≤ bEnd
    · rw [dif_pos ⟨hd, hg⟩]
      by_cases hb : booked.contains start = true
      · rw [if_pos hb]
        exact ih (start + dur) (by omega)
      · rw [if_neg hb]
        refine List.chain'_cons'.mpr ⟨?_, ih (start + dur) (by omega)⟩
        intro q hq
        have hq2 := slotLoop_lower_bound dur bEnd booked doc hd (start + dur) q
          (List.mem_of_mem_head? hq)
        omega
    · rw [dif_neg (by omega)]
      exact List.chain'_nil

/-- Claim C5 (confirmed): for every schedule block in the queried date
range and the configured duration, the slot finder emits exactly the
start times `block_start + k * duration` with `start + duration` at or
before the block end, omitting precisely the booked start times; within
a block the starts are strictly increasing (per-offset order, and the
output is the in-order concatenation over the filtered blocks); and for
the 09:00 - 12:00 block with 60-minute duration and a 10:00 booking, the
result holds 09:00 and 11:00 but not 10:00 (times in minutes). -/
theorem c5_find_available_slots :
    (∀ (is_new : Bool) (blocks : List ScheduleBlock) (booked : List Nat)
        (startDate endDate : Nat) (d : String) (t : Nat),
      ((d, t) ∈ find_available_slots is_new blocks booked startDate endDate ↔
        ∃ b ∈ blocks, startDate ≤ b.start_dt ∧ b.start_dt < endDate ∧ d = b.doctor_name ∧
          (∃ k, t = b.start_dt + k * (if is_new then 60 else 30)) ∧
          t + (if is_new then 60 else 30) ≤ b.end_dt ∧ booked.contains t = false)) ∧
    (∀ (is_new : Bool) (blocks : List ScheduleBlock) (booked : List Nat)
        (startDate endDate : Nat),
      find_available_slots is_new blocks booked startDate endDate =
        (blocks.filter (fun b => startDate ≤ b.start_dt && b.start_dt < endDate)).flatMap
          (fun b => slotLoop (if is_new then 60 else 30) b.end_dt booked b.doctor_name b.start_dt)) ∧
    (∀ (is_new : Bool) (booked : List Nat) (bEnd : Nat) (doc : String) (start : Nat),
      List.Chain' (fun p q : String × Nat => p.2 < q.2)
        (slotLoop (if is_new then 60 else 30) bEnd booked doc start)) ∧
    find_available_slots true [⟨"Dr. A", 540, 720⟩] [600] 0 100000 =
      [("Dr. A", 540), ("Dr. A", 660)] := by
  have hdur : ∀ is_new : Bool, 0 < (if is_new then 60 else 30 : Nat) := by
    intro b; cases b <;> simp
  refine ⟨?_, fun _ _ _ _ _ => rfl, ?_, ?_⟩
  · intro is_new blocks booked startDate endDate d t
    unfold find_available_slots
    simp only [List.mem_flatMap, List.mem_filter, Bool.and_eq_true, decide_eq_true_eq]
    constructor
    · rintro ⟨b, ⟨hbmem, h1, h2⟩, hslot⟩
      obtain ⟨hdoc, hks, hfit, hbk⟩ :=
        (slotLoop_mem_iff _ b.end_dt booked b.doctor_name (hdur is_new) d t b.start_dt).mp hslot
      exact ⟨b, hbmem, h1, h2, hdoc, hks, hfit, hbk⟩
    · rintro ⟨b, hbmem, h1, h2, hdoc, hks, hfit, hbk⟩
      exact ⟨b, ⟨hbmem, h1, h2⟩,
        (slotLoop_mem_iff _ b.end_dt booked b.doctor_name (hdur is_new) d t b.start_dt).mpr
          ⟨hdoc, hks, hfit, hbk⟩⟩
  · intro is_new booked bEnd doc start
    exact slotLoop_chain _ bEnd booked doc (hdur is_new) start
  · have e4 : slotLoop 60 720 [600] "Dr. A" 720 = [] := by
      rw [slotLoop, dif_neg (by omega)]
    have e3 : slotLoop 60 720 [600] "Dr. A" 660 =
        [("Dr. A", 660)] := by
      rw [slotLoop, dif_pos (by omega : (0 : Nat) < 60 ∧ 660 + 60 ≤ 720),
        if_neg (by decide)]
      rw [show (660 : Nat) + 60 = 720 from rfl, e4]
    have e2 : slotLoop 60 720 [600] "Dr. A" 600 = [("Dr. A", 660)] := by
      rw [slotLoop, dif_pos (by omega : (0 : Nat) < 60 ∧ 600 + 60 ≤ 720),
        if_pos (by decide)]
      rw [show (600 : Nat) + 60 = 660 from rfl, e3]
    have e1 : slotLoop 60 720 [600] "Dr. A" 540 =
        ("Dr. A", 540) :: slotLoop 60 720 [600] "Dr. A" 600 := by
      rw [slotLoop, dif_pos (by omega : (0 : Nat) < 60 ∧ 540 + 60 ≤ 720),
        if_neg (by decide)]
    unfold find_available_slots
    simp only [if_true]
    rw [show (List.filter (fun b => 0 ≤ b.start_dt && b.start_dt < 100000)
        [(⟨"Dr. A", 540, 720⟩ : ScheduleBlock)]) =
        [(⟨"Dr. A", 540, 720⟩ : ScheduleBlock)] from by decide]
    simp only [List.flatMap_cons, List.flatMap_nil, List.append_nil]
    rw [e1, e2]

end SchedAgent
